import Mathlib

/-!
Verification development for the chat-logs analytics core
(`analytics/supabase_integration/backend/chat_logs_analytics.py`).

The Python code is shallowly embedded: timestamps are integers (seconds since
the epoch, matching `datetime` subtraction via `total_seconds`), Python floats
arising from exact small-integer division are modelled as rationals, and
Python dictionaries keyed by insertion order are modelled as association
lists built in insertion order.  Every definition is translated from the
source file; deviations forced by the embedding (e.g. Python `set` iteration
order) are noted in the corresponding doc comment.
-/

/-- Mirrors the `ChatInteraction` dataclass: a single chat interaction row. -/
structure ChatInteraction where
  id : String
  user_query : String
  claude_response : String
  user_id : String
  project_id : String
  interaction_timestamp : Int
  created_at : Int
  updated_at : Int
deriving DecidableEq

/-- Mirrors the `ConversationSession` dataclass.  The derived summary fields
(`files_mentioned`, `success_indicators`, ...) are stored exactly as the
Python object stores them. -/
structure ConversationSession where
  session_id : String
  user_id : String
  project_id : String
  interactions : List ChatInteraction
  start_time : Int
  end_time : Int
  duration_minutes : Int
  files_mentioned : List String
  features_discussed : List String
  problems_encountered : List String
  solutions_found : List String
  success_indicators : Nat
  stuck_indicators : Nat
deriving DecidableEq

/-- Mirrors the `DeveloperActivity` dataclass.  `success_rate` is the exact
rational value of the Python float division `total_success / max(total, 1)`. -/
structure DeveloperActivity where
  user_id : String
  project_id : String
  current_task : String
  status : String
  last_activity : Int
  duration_minutes : Int
  files_working_on : List String
  recent_problems : List String
  iteration_count : Nat
  success_rate : ℚ
deriving DecidableEq

/-- Mirrors the collision dictionary built by `_check_collision`
(keys `type`, `users`, `resource`, `confidence`, `detected_at`,
`suggestion`); `detected_at` stores the evaluation time passed in for
`datetime.now`. -/
structure Collision where
  type : String
  users : List String
  resource : String
  confidence : ℚ
  detected_at : Int
  suggestion : String
deriving DecidableEq

/-- The apostrophe character (several indicator phrases contain it). -/
def apos : Char := Char.ofNat 39

/-- The success-indicator lexicon from `ChatLogsAnalyzer.__init__`. -/
def success_indicators : List (List Char) :=
  ["works".data, "perfect".data, "done".data, "completed".data,
   "success".data, "fixed".data, "great".data, "exactly".data,
   "solved".data, "working now".data,
   "that".data ++ [apos] ++ "s it".data,
   "perfect!".data, "excellent".data, "thank you".data, "brilliant".data]

/-- The stuck-indicator lexicon from `ChatLogsAnalyzer.__init__`. -/
def stuck_indicators : List (List Char) :=
  ["still not working".data, "same error".data, "tried everything".data,
   "doesn".data ++ [apos] ++ "t work".data,
   "keep getting".data, "still failing".data,
   "won".data ++ [apos] ++ "t work".data,
   "same issue".data, "no luck".data, "still broken".data]

/-- The problem-indicator lexicon from `ChatLogsAnalyzer.__init__`. -/
def problem_indicators : List (List Char) :=
  ["error".data, "bug".data, "issue".data, "problem".data, "fail".data,
   "broken".data, "not working".data,
   "doesn".data ++ [apos] ++ "t work".data,
   "exception".data, "crash".data]

/-- Python `str.lower()` restricted to the character map (all text in the
source is ASCII). -/
def lowerChars (s : List Char) : List Char := s.map Char.toLower

/-- Fuel-indexed scanner for Python `str.count`: counts non-overlapping
occurrences of `sub`, scanning left to right.  The fuel only bounds the
recursion; `countOcc` supplies `text.length`, which always suffices because
every step consumes at least one character of the text. -/
def countOccAux (sub : List Char) : Nat → List Char → Nat
  | 0, _ => 0
  | _ + 1, [] => 0
  | fuel + 1, c :: rest =>
    if sub.isPrefixOf (c :: rest) && !sub.isEmpty then
      1 + countOccAux sub fuel (List.drop (sub.length - 1) rest)
    else
      countOccAux sub fuel rest

/-- Python `text.count(sub)` (non-overlapping occurrence count). -/
def countOcc (text sub : List Char) : Nat := countOccAux sub text.length text

/-- Embeds `_count_indicators`: sums `text.count(indicator)` over the
indicator list (the caller passes already-lowercased text, as in the
source). -/
def _count_indicators (text : List Char) (indicators : List (List Char)) : Nat :=
  (indicators.map (fun ind => countOcc text ind)).sum

/-- The session text built in `_create_session` (line 172):
`' '.join(i.user_query + ' ' + i.claude_response for i in interactions)`. -/
def session_all_text (interactions : List ChatInteraction) : String :=
  String.intercalate " "
    (interactions.map (fun i => i.user_query ++ " " ++ i.claude_response))

/-- `success_count` as computed in `_create_session` (line 181). -/
def session_success_count (interactions : List ChatInteraction) : Nat :=
  _count_indicators (lowerChars (session_all_text interactions).data) success_indicators

/-- `stuck_count` as computed in `_create_session` (line 182). -/
def session_stuck_count (interactions : List ChatInteraction) : Nat :=
  _count_indicators (lowerChars (session_all_text interactions).data) stuck_indicators

/-- A raw chat-log record (one JSON object of the `claude_chat_logs`
schema).  A field is `none` when the Python expression reading it raises:
a missing key raises `KeyError`, and an unparseable timestamp string makes
`datetime.fromisoformat` raise `ValueError`; a `some` timestamp is the
parsed epoch value. -/
structure RawChatLog where
  id? : Option String
  user_query? : Option String
  claude_response? : Option String
  user_id? : Option String
  project_id? : Option String
  interaction_timestamp? : Option Int
  created_at? : Option Int
  updated_at? : Option Int
deriving DecidableEq

/-- Building one `ChatInteraction` inside the `parse_chat_logs` loop: any
raising field access aborts with the exception (modelled as `Except.error`). -/
def parse_one_log (log : RawChatLog) : Except String ChatInteraction :=
  match log.id?, log.user_query?, log.claude_response?, log.user_id?,
        log.project_id?, log.interaction_timestamp?, log.created_at?,
        log.updated_at? with
  | some i, some q, some r, some u, some p, some ts, some c, some up =>
      .ok { id := i, user_query := q, claude_response := r, user_id := u,
            project_id := p, interaction_timestamp := ts, created_at := c,
            updated_at := up }
  | _, _, _, _, _, _, _, _ => .error "malformed chat log record"

/-- A record is well-formed when every field access succeeds. -/
def wellformed (log : RawChatLog) : Bool :=
  log.id?.isSome && log.user_query?.isSome && log.claude_response?.isSome &&
  log.user_id?.isSome && log.project_id?.isSome &&
  log.interaction_timestamp?.isSome && log.created_at?.isSome &&
  log.updated_at?.isSome

/-- Embeds `parse_chat_logs` (lines 102-119): a plain `for` loop with no
exception handler, so the first raising record propagates its exception and
the whole call returns nothing. -/
def parse_chat_logs (chat_logs : List RawChatLog) : Except String (List ChatInteraction) :=
  match chat_logs with
  | [] => .ok []
  | log :: rest =>
    match parse_one_log log with
    | .error e => .error e
    | .ok i =>
      match parse_chat_logs rest with
      | .error e => .error e
      | .ok is => .ok (i :: is)

/-- One step of the `defaultdict(list)` grouping in `group_into_sessions`
(lines 126-129): append the interaction to its `(user_id, project_id)`
bucket, creating the bucket at the end on first sight (Python dicts preserve
insertion order). -/
def addToGroups (x : ChatInteraction) :
    List ((String × String) × List ChatInteraction) →
    List ((String × String) × List ChatInteraction)
  | [] => [((x.user_id, x.project_id), [x])]
  | (k, g) :: rest =>
    if k = (x.user_id, x.project_id) then (k, g ++ [x]) :: rest
    else (k, g) :: addToGroups x rest

/-- The `user_project_interactions` grouping of `group_into_sessions`. -/
def groupByKey (l : List ChatInteraction) :
    List ((String × String) × List ChatInteraction) :=
  l.foldl (fun gs x => addToGroups x gs) []

/-- The ascending sort order of line 135 (`sort(key=lambda x:
x.interaction_timestamp)`). -/
def byTimestamp : ChatInteraction → ChatInteraction → Prop :=
  fun a b => a.interaction_timestamp ≤ b.interaction_timestamp

instance : DecidableRel byTimestamp :=
  fun a b => inferInstanceAs (Decidable (a.interaction_timestamp ≤ b.interaction_timestamp))

instance : IsTotal ChatInteraction byTimestamp :=
  ⟨fun a b => Int.le_total a.interaction_timestamp b.interaction_timestamp⟩

instance : IsTrans ChatInteraction byTimestamp :=
  ⟨fun _ _ _ h1 h2 => le_trans h1 h2⟩

/-- The session-splitting walk of `group_into_sessions` (lines 138-159),
started at the first record `x` of the sorted per-pair list: returns the
session containing `x` together with the later sessions.  The Python loop
starts a new session exactly when the incoming record's timestamp minus the
previous record's timestamp exceeds the gap (in seconds), which is a
decision local to each consecutive pair. -/
def splitRun (gap_seconds : Int) (x : ChatInteraction) :
    List ChatInteraction → List ChatInteraction × List (List ChatInteraction)
  | [] => ([x], [])
  | y :: ys =>
    if y.interaction_timestamp - x.interaction_timestamp > gap_seconds then
      ([x], (splitRun gap_seconds y ys).1 :: (splitRun gap_seconds y ys).2)
    else
      (x :: (splitRun gap_seconds y ys).1, (splitRun gap_seconds y ys).2)

/-- All sessions produced from one sorted per-pair record list. -/
def splitSessions (gap_seconds : Int) : List ChatInteraction → List (List ChatInteraction)
  | [] => []
  | x :: xs => (splitRun gap_seconds x xs).1 :: (splitRun gap_seconds x xs).2

/-- Embeds `group_into_sessions` (lines 121-161) at the granularity of each
session's member records: the Python function passes each produced chunk to
`_create_session`, which stores the chunk unchanged in the session's
`interactions` field, so the segmentation claims are claims about these
chunks.  Buckets are visited in dict insertion order and each bucket is
sorted by timestamp (Python's stable sort keeps tied records in input
order, as does `List.insertionSort`). -/
def group_into_sessions (gap_minutes : Int) (interactions : List ChatInteraction) :
    List (List ChatInteraction) :=
  ((groupByKey interactions).map
    (fun kg => splitSessions (gap_minutes * 60) (List.insertionSort byTimestamp kg.2))).join

/-- The descending recency sort of `calculate_developer_status` line 231
(`sort(key=lambda x: x.end_time, reverse=True)`; Python's stable sort keeps
ties in input order, as does `List.insertionSort` with this relation). -/
def byRecency : ConversationSession → ConversationSession → Prop :=
  fun a b => b.end_time ≤ a.end_time

instance : DecidableRel byRecency :=
  fun a b => inferInstanceAs (Decidable (b.end_time ≤ a.end_time))

instance : IsTotal ConversationSession byRecency :=
  ⟨fun a b => Int.le_total b.end_time a.end_time⟩

instance : IsTrans ConversationSession byRecency :=
  ⟨fun _ _ _ h1 h2 => le_trans h2 h1⟩

/-- `datetime.min.replace(tzinfo=timezone.utc)` as epoch seconds
(0001-01-01T00:00:00Z); the exact value is irrelevant to every claim. -/
def datetime_min : Int := -62135596800

/-- The idle `DeveloperActivity` returned at lines 217-228 when no recent
session exists. -/
def idle_activity (user_id project_id : String) : DeveloperActivity :=
  { user_id := user_id, project_id := project_id,
    current_task := "No recent activity", status := "idle",
    last_activity := datetime_min, duration_minutes := 0,
    files_working_on := [], recent_problems := [],
    iteration_count := 0, success_rate := 0 }

/-- The in-window filter of `calculate_developer_status` (lines 209-214):
same user, same project, `end_time > now - lookback_hours` (as seconds). -/
def recent_sessions_for (sessions : List ConversationSession)
    (user_id project_id : String) (lookback_hours : Int) (now : Int) :
    List ConversationSession :=
  sessions.filter (fun s =>
    s.user_id == user_id && s.project_id == project_id &&
    now - lookback_hours * 3600 < s.end_time)

/-- `sum(len(s.interactions) for s in l)`. -/
def total_interactions_of (l : List ConversationSession) : Nat :=
  (l.map (fun s => s.interactions.length)).sum

/-- `sum(s.success_indicators for s in l)`. -/
def total_success_of (l : List ConversationSession) : Nat :=
  (l.map (fun s => s.success_indicators)).sum

/-- `sum(s.stuck_indicators for s in l)`. -/
def total_stuck_of (l : List ConversationSession) : Nat :=
  (l.map (fun s => s.stuck_indicators)).sum

/-- Embeds `_calculate_objective_status` (lines 414-437).  Note the order of
the branches: the flow test runs first, then the stuck test, then slow. -/
def _calculate_objective_status (sessions : List ConversationSession) : String :=
  if sessions.isEmpty then "idle"
  else
    let total_interactions := total_interactions_of sessions
    let total_success := total_success_of sessions
    let total_stuck := total_stuck_of sessions
    if total_success > 0 ∧ total_interactions ≤ 6 then "flow"
    else if total_stuck > 1 ∨ (total_interactions > 10 ∧ total_success = 0) then "stuck"
    else if total_interactions > 6 then "slow"
    else "flow"

/-- Python `str.title()` for the ASCII strings of the feature lexicon:
uppercase a letter starting a run of letters, lowercase the rest. -/
def titleChars : Bool → List Char → List Char
  | _, [] => []
  | prevAlpha, c :: rest =>
    (if c.isAlpha && !prevAlpha then c.toUpper
     else if c.isAlpha then c.toLower else c) :: titleChars c.isAlpha rest

/-- Embeds `_infer_current_task` (lines 402-412). -/
def _infer_current_task (session : ConversationSession) : String :=
  match session.files_mentioned with
  | f :: _ => "Working on " ++ f
  | [] =>
    match session.features_discussed with
    | f :: _ => String.mk (titleChars false f.data) ++ " development"
    | [] =>
      match session.problems_encountered.getLast? with
      | some problem => "Debugging: " ++ String.mk (problem.data.take 50) ++ "..."
      | none => "General development"

/-- One element of the Python `set.update` walk: add `x` unless present. -/
def insertNew (acc : List String) (x : String) : List String :=
  if x ∈ acc then acc else acc ++ [x]

/-- `all_files` of lines 249-252: Python builds a `set` by updating it with
each session's file list; `set` iteration order is unspecified in Python,
modelled here as first-seen insertion order. -/
def all_files_of (l : List ConversationSession) : List String :=
  l.foldl (fun acc s => s.files_mentioned.foldl insertNew acc) []

/-- `all_problems` of lines 250-253: concatenation of each session's
problem list, sessions visited in the (recency-sorted) list order. -/
def all_problems_of (l : List ConversationSession) : List String :=
  (l.map (fun s => s.problems_encountered)).join

/-- The non-idle branch of `calculate_developer_status` (lines 230-266),
taking the recency-sorted in-window list as `latest :: restSorted` (the
Python sort happens in place, so every aggregate reads the sorted list). -/
def activity_from_sorted (user_id project_id : String)
    (latest : ConversationSession) (restSorted : List ConversationSession) :
    DeveloperActivity :=
  let sorted := latest :: restSorted
  let total_interactions := total_interactions_of sorted
  let total_success := total_success_of sorted
  let total_duration := (sorted.map (fun s => s.duration_minutes)).sum
  let all_problems := all_problems_of sorted
  { user_id := user_id, project_id := project_id,
    current_task := _infer_current_task latest,
    status := _calculate_objective_status sorted,
    last_activity := latest.end_time,
    duration_minutes := total_duration,
    files_working_on := (all_files_of sorted).take 5,
    recent_problems := all_problems.drop (all_problems.length - 3),
    iteration_count := total_interactions,
    success_rate := mkRat total_success (max total_interactions 1) }

/-- Embeds `calculate_developer_status` (lines 202-266) with the
`datetime.now(timezone.utc)` call made an explicit `now` argument.  The
empty check of line 216 and the in-place recency sort of line 231 are fused
into one match on the sorted in-window list (sorting preserves emptiness);
`recent_problems` is Python `all_problems[-3:]`, i.e. the last
`min(3, len)` elements. -/
def calculate_developer_status (sessions : List ConversationSession)
    (user_id project_id : String) (lookback_hours : Int) (now : Int) :
    DeveloperActivity :=
  match List.insertionSort byRecency
      (recent_sessions_for sessions user_id project_id lookback_hours now) with
  | [] => idle_activity user_id project_id
  | latest :: restSorted => activity_from_sorted user_id project_id latest restSorted

/-- `files1`/`files2` of `_check_collision` (lines 445-456): a Python `set`
built with `update`, modelled as a first-seen-order duplicate-free list. -/
def union_files (sessions : List ConversationSession) : List String :=
  sessions.foldl (fun acc s => s.files_mentioned.foldl insertNew acc) []

/-- `features1`/`features2` of `_check_collision` (lines 447-456). -/
def union_features (sessions : List ConversationSession) : List String :=
  sessions.foldl (fun acc s => s.features_discussed.foldl insertNew acc) []

/-- Embeds `_check_collision` (lines 439-482).  `list(overlap)[0]` picks an
arbitrary element of a Python set; it is modelled as the first shared
element in the first user's collection order (no claim depends on which
element is picked).  `datetime.now(timezone.utc)` is the explicit `now`. -/
def _check_collision (sessions1 sessions2 : List ConversationSession)
    (user1 user2 : String) (now : Int) : Option Collision :=
  match (union_files sessions1).filter (fun f => f ∈ union_files sessions2) with
  | f :: _ =>
    some { type := "file_collision", users := [user1, user2], resource := f,
           confidence := mkRat 9 10, detected_at := now,
           suggestion := "Coordinate work on " ++ f }
  | [] =>
    match (union_features sessions1).filter (fun f => f ∈ union_features sessions2) with
    | f :: _ =>
      some { type := "feature_collision", users := [user1, user2], resource := f,
             confidence := mkRat 7 10, detected_at := now,
             suggestion := "Coordinate " ++ f ++ " development" }
    | [] => none

/-- One step of the `user_activities` grouping in `detect_team_collisions`
(lines 283-285). -/
def addSessionToGroups (s : ConversationSession) :
    List (String × List ConversationSession) →
    List (String × List ConversationSession)
  | [] => [(s.user_id, [s])]
  | (u, g) :: rest =>
    if u = s.user_id then (u, g ++ [s]) :: rest
    else (u, g) :: addSessionToGroups s rest

/-- The `user_activities` dict of `detect_team_collisions`, in insertion
order. -/
def groupByUser (sessions : List ConversationSession) :
    List (String × List ConversationSession) :=
  sessions.foldl (fun gs s => addSessionToGroups s gs) []

/-- The nested pair loop of `detect_team_collisions` (lines 291-300): for
each user in key order, check against every strictly later user, keeping
the returned collisions in loop order. -/
def collide_pairs (now : Int) :
    List (String × List ConversationSession) → List Collision
  | [] => []
  | (u1, g1) :: rest =>
    (rest.filterMap (fun ug => _check_collision g1 ug.2 u1 ug.1 now)) ++
      collide_pairs now rest

/-- Embeds `detect_team_collisions` (lines 268-302) with the
`datetime.now(timezone.utc)` call made an explicit `now` argument. -/
def detect_team_collisions (sessions : List ConversationSession)
    (project_id : String) (lookback_hours : Int) (now : Int) : List Collision :=
  let recent := sessions.filter (fun s =>
    s.project_id == project_id && now - lookback_hours * 3600 < s.end_time)
  collide_pairs now (groupByUser recent)

/-! ### Concrete fixtures used by counterexamples and witnesses -/

/-- A one-interaction session whose text is the single token `perfect!`;
its signal counts are computed by the embedded counting code. -/
def cx_interaction : ChatInteraction :=
  { id := "i1", user_query := "perfect!", claude_response := "",
    user_id := "u", project_id := "p",
    interaction_timestamp := 1000, created_at := 1000, updated_at := 1000 }

def cx_session : ConversationSession :=
  { session_id := "sx", user_id := "u", project_id := "p",
    interactions := [cx_interaction], start_time := 1000, end_time := 1000,
    duration_minutes := 1, files_mentioned := [], features_discussed := [],
    problems_encountered := [], solutions_found := [],
    success_indicators := session_success_count [cx_interaction],
    stuck_indicators := session_stuck_count [cx_interaction] }

/-- Scenario B of the specification: four interactions whose combined text
contains `fixed` once and `still not working` twice. -/
def b1 : ChatInteraction :=
  { id := "b1", user_query := "still not working", claude_response := "",
    user_id := "u", project_id := "p",
    interaction_timestamp := 0, created_at := 0, updated_at := 0 }

def b2 : ChatInteraction := { b1 with id := "b2", interaction_timestamp := 60 }

def b3 : ChatInteraction :=
  { b1 with id := "b3", user_query := "fixed", interaction_timestamp := 120 }

def b4 : ChatInteraction :=
  { b1 with id := "b4", user_query := "hello", interaction_timestamp := 180 }

def b_session : ConversationSession :=
  { session_id := "sb", user_id := "u", project_id := "p",
    interactions := [b1, b2, b3, b4], start_time := 0, end_time := 180,
    duration_minutes := 3, files_mentioned := [], features_discussed := [],
    problems_encountered := [], solutions_found := [],
    success_indicators := session_success_count [b1, b2, b3, b4],
    stuck_indicators := session_stuck_count [b1, b2, b3, b4] }

def b5 : ChatInteraction := { b4 with id := "b5", interaction_timestamp := 240 }

/-- Like Scenario B but with no success signal (text is `still not working`
twice over four interactions). -/
def d_session : ConversationSession :=
  { b_session with
    session_id := "sd",
    interactions := [b1, b2, b4, b5],
    success_indicators := session_success_count [b1, b2, b4, b5],
    stuck_indicators := session_stuck_count [b1, b2, b4, b5] }

/-! ### C10 -/

/-- Claim C10: signal counting sums independent substring counts over all
indicator phrases, so one textual occurrence can count more than once: a
session whose sole text is the token `perfect!` gets a success-signal count
of at least 2 (both `perfect` and `perfect!` are indicator phrases). -/
theorem C10_overlapping_indicators : 2 ≤ session_success_count [cx_interaction] := by decide

/-! ### C1 -/

/-- Claim C1 is false as stated: the aggregate of `b_session` has stuck
count 2 (> 1), success count 1 and 4 interactions, yet
`_calculate_objective_status` classifies it `flow`, not `stuck`, because
the flow rule is evaluated first. -/
theorem C1_counterexample :
    total_stuck_of [b_session] = 2 ∧ total_success_of [b_session] = 1 ∧
    total_interactions_of [b_session] = 4 ∧
    _calculate_objective_status [b_session] = "flow" := by decide

/-- Claim C1 (amended): the flow rule is evaluated before the stuck rule,
so `stuck_signal_count > 1` forces the `stuck` classification exactly when
the flow rule does not fire, i.e. when the aggregate success count is 0 or
the interaction count exceeds 6. -/
theorem C1_stuck_precedence (sessions : List ConversationSession)
    (hstuck : total_stuck_of sessions > 1)
    (hflow : total_success_of sessions = 0 ∨ total_interactions_of sessions > 6) :
    _calculate_objective_status sessions = "stuck" := by
  cases sessions with
  | nil => simp [total_stuck_of] at hstuck
  | cons a l =>
    rw [_calculate_objective_status]
    simp only [List.isEmpty_cons, if_false, Bool.false_eq_true]
    rw [if_neg, if_pos (Or.inl hstuck)]
    rcases hflow with h | h
    · simp [h]
    · intro hc
      omega

/-- Witness for `C1_stuck_precedence` at `d_session` (stuck count 2,
success count 0, 4 interactions). -/
theorem C1_stuck_precedence_witness :
    total_stuck_of [d_session] > 1 ∧
    _calculate_objective_status [d_session] = "stuck" :=
  ⟨by decide, C1_stuck_precedence [d_session] (by decide) (Or.inl (by decide))⟩

/-! ### C3 -/

def good_log : RawChatLog :=
  { id? := some "a", user_query? := some "q", claude_response? := some "r",
    user_id? := some "u", project_id? := some "p",
    interaction_timestamp? := some 0, created_at? := some 0, updated_at? := some 0 }

/-- A record whose timestamp string `datetime.fromisoformat` cannot parse. -/
def bad_log : RawChatLog := { good_log with interaction_timestamp? := none }

/-- Claim C3 is false as stated: a batch holding one well-formed record and
one record with an unparseable timestamp aborts as a whole — the parse
returns the propagated exception and no result for the well-formed record. -/
theorem C3_counterexample :
    parse_chat_logs [good_log, bad_log] = .error "malformed chat log record" := rfl

/-- A malformed record makes `parse_one_log` raise. -/
theorem parse_one_log_malformed (log : RawChatLog) (h : wellformed log = false) :
    parse_one_log log = .error "malformed chat log record" := by
  rcases log with ⟨i, q, r, u, p, ts, c, up⟩
  cases i <;> cases q <;> cases r <;> cases u <;> cases p <;>
    cases ts <;> cases c <;> cases up <;>
    first
      | rfl
      | simp [wellformed] at h

/-- Claim C3 (amended): `parse_chat_logs` has no per-record error handling,
so a batch containing any malformed record (missing field or unparseable
timestamp) fails as a whole with the propagated exception; no partial
result is returned for the remaining records. -/
theorem C3_batch_abort (chat_logs : List RawChatLog)
    (h : ∃ log ∈ chat_logs, wellformed log = false) :
    ∃ e, parse_chat_logs chat_logs = .error e := by
  induction chat_logs with
  | nil => rcases h with ⟨log, hmem, _⟩; cases hmem
  | cons l rest ih =>
    rw [parse_chat_logs]
    rcases h with ⟨log, hmem, hbad⟩
    rcases List.mem_cons.mp hmem with rfl | hmem
    · rw [parse_one_log_malformed log hbad]
      exact ⟨_, rfl⟩
    · cases hpl : parse_one_log l with
      | error e => exact ⟨e, rfl⟩
      | ok i =>
        rcases ih ⟨log, hmem, hbad⟩ with ⟨e, he⟩
        rw [he]
        exact ⟨e, rfl⟩

/-- Witness for `C3_batch_abort` on the two-record batch. -/
theorem C3_batch_abort_witness :
    (∃ log ∈ [good_log, bad_log], wellformed log = false) ∧
    ∃ e, parse_chat_logs [good_log, bad_log] = .error e :=
  ⟨⟨bad_log, by simp, rfl⟩,
   C3_batch_abort [good_log, bad_log] ⟨bad_log, by simp, rfl⟩⟩

/-! ### C4 -/

/-- Claim C4 is false as stated: a single in-window one-interaction session
whose text is `perfect!` has success-signal count 2 (counted by the
embedded `_count_indicators`), so `success_rate = 2/1 > 1`, outside
`[0,1]`. -/
theorem C4_counterexample :
    1 < (calculate_developer_status [cx_session] "u" "p" 2 4600).success_rate := by
  decide

/-- Claim C4 (amended): the success ratio is always nonnegative, and it
lies in `[0,1]` exactly under the extra assumption that the aggregate
success-signal count does not exceed the aggregate interaction count (the
count of indicator occurrences can exceed the interaction count, so the
upper bound does not hold unconditionally). -/
theorem C4_success_ratio_bounds (sessions : List ConversationSession)
    (user_id project_id : String) (lookback_hours now : Int) :
    0 ≤ (calculate_developer_status sessions user_id project_id lookback_hours now).success_rate ∧
    (total_success_of (recent_sessions_for sessions user_id project_id lookback_hours now) ≤
        total_interactions_of (recent_sessions_for sessions user_id project_id lookback_hours now) →
      (calculate_developer_status sessions user_id project_id lookback_hours now).success_rate ≤ 1) := by
  have hperm : List.Perm
      (List.insertionSort byRecency
        (recent_sessions_for sessions user_id project_id lookback_hours now))
      (recent_sessions_for sessions user_id project_id lookback_hours now) :=
    List.perm_insertionSort byRecency _
  cases hs : (List.insertionSort byRecency
      (recent_sessions_for sessions user_id project_id lookback_hours now)) with
  | nil =>
    have he : calculate_developer_status sessions user_id project_id lookback_hours now
        = idle_activity user_id project_id := by
      unfold calculate_developer_status
      rw [hs]
    rw [he]
    exact ⟨le_refl 0, fun _ => by norm_num [idle_activity]⟩
  | cons latest restSorted =>
    have he : calculate_developer_status sessions user_id project_id lookback_hours now
        = activity_from_sorted user_id project_id latest restSorted := by
      unfold calculate_developer_status
      rw [hs]
    rw [hs] at hperm
    have hsucc : total_success_of (latest :: restSorted) =
        total_success_of (recent_sessions_for sessions user_id project_id lookback_hours now) := by
      unfold total_success_of
      exact (hperm.map (fun s => s.success_indicators)).sum_eq
    have hint : total_interactions_of (latest :: restSorted) =
        total_interactions_of (recent_sessions_for sessions user_id project_id lookback_hours now) := by
      unfold total_interactions_of
      exact (hperm.map (fun s => s.interactions.length)).sum_eq
    have hrate : (calculate_developer_status sessions user_id project_id lookback_hours now).success_rate
        = mkRat (total_success_of (latest :: restSorted))
            (max (total_interactions_of (latest :: restSorted)) 1) := by
      rw [he]
      rfl
    rw [hrate, Rat.mkRat_eq_div]
    constructor
    · apply div_nonneg
      · exact_mod_cast Int.ofNat_nonneg _
      · exact_mod_cast Nat.zero_le _
    · intro hle
      rw [div_le_one (by exact_mod_cast Nat.lt_of_lt_of_le Nat.zero_lt_one (Nat.le_max_right _ 1))]
      have hb : total_success_of (latest :: restSorted) ≤
          max (total_interactions_of (latest :: restSorted)) 1 := by
        rw [hsucc, hint]
        omega
      exact_mod_cast hb

/-- Witness for `C4_success_ratio_bounds` at a session with success count 0
and 4 interactions inside the window. -/
theorem C4_success_ratio_bounds_witness :
    total_success_of (recent_sessions_for [d_session] "u" "p" 2 1000) ≤
      total_interactions_of (recent_sessions_for [d_session] "u" "p" 2 1000) ∧
    (calculate_developer_status [d_session] "u" "p" 2 1000).success_rate ≤ 1 :=
  ⟨by decide, (C4_success_ratio_bounds [d_session] "u" "p" 2 1000).2 (by decide)⟩

/-! ### C6 -/

/-- Claim C6: when the in-window filter returns no session for the person
and scope, the computed activity is exactly the idle default: state
`idle`, empty file and problem lists, interaction count 0 and success
ratio 0; the computation returns normally. -/
theorem C6_idle_on_empty_window (sessions : List ConversationSession)
    (user_id project_id : String) (lookback_hours now : Int)
    (h : recent_sessions_for sessions user_id project_id lookback_hours now = []) :
    calculate_developer_status sessions user_id project_id lookback_hours now
        = idle_activity user_id project_id ∧
    (calculate_developer_status sessions user_id project_id lookback_hours now).status = "idle" ∧
    (calculate_developer_status sessions user_id project_id lookback_hours now).files_working_on = [] ∧
    (calculate_developer_status sessions user_id project_id lookback_hours now).recent_problems = [] ∧
    (calculate_developer_status sessions user_id project_id lookback_hours now).iteration_count = 0 ∧
    (calculate_developer_status sessions user_id project_id lookback_hours now).success_rate = 0 := by
  have he : calculate_developer_status sessions user_id project_id lookback_hours now
      = idle_activity user_id project_id := by
    unfold calculate_developer_status
    rw [h]
    rfl
  exact ⟨he, by rw [he]; rfl, by rw [he]; rfl, by rw [he]; rfl, by rw [he]; rfl, by rw [he]; rfl⟩

/-- Witness for `C6_idle_on_empty_window` on the empty session set. -/
theorem C6_idle_on_empty_window_witness :
    recent_sessions_for [] "u" "p" 2 0 = [] ∧
    calculate_developer_status [] "u" "p" 2 0 = idle_activity "u" "p" :=
  ⟨rfl, (C6_idle_on_empty_window [] "u" "p" 2 0 rfl).1⟩

/-! ### C8 -/

def r1 : ChatInteraction :=
  { id := "r1", user_query := "a", claude_response := "", user_id := "u",
    project_id := "p", interaction_timestamp := 0, created_at := 0, updated_at := 0 }

def r2 : ChatInteraction := { r1 with id := "r2", interaction_timestamp := 60 }

/-- Claim C8 is false as stated: a gap threshold of 0 and a lookback window
of 0 are not rejected — both invocations compute normal results (the
segmentation splits at every positive time difference; the status
computation resolves to the idle default because nothing passes the
filter). -/
theorem C8_counterexample :
    group_into_sessions 0 [r1, r2] = [[r1], [r2]] ∧
    calculate_developer_status [b_session] "u" "p" 0 1000 = idle_activity "u" "p" := by
  decide

/-- With a negative gap every comparison of the walk exceeds the threshold
(sorted timestamps make consecutive differences nonnegative), so every
record opens a new session. -/
theorem splitRun_neg_gap (g : Int) (hg : g < 0) (x : ChatInteraction)
    (xs : List ChatInteraction) (hchain : List.Chain' byTimestamp (x :: xs)) :
    splitRun g x xs = ([x], xs.map (fun y => [y])) := by
  induction xs generalizing x with
  | nil => rfl
  | cons y ys ih =>
    have hxy : byTimestamp x y := (List.chain'_cons.mp hchain).1
    have hcond : y.interaction_timestamp - x.interaction_timestamp > g := by
      unfold byTimestamp at hxy
      omega
    rw [splitRun, if_pos hcond, ih y (List.chain'_cons.mp hchain).2]
    simp

theorem splitSessions_neg_gap (g : Int) (hg : g < 0) (l : List ChatInteraction)
    (hchain : List.Chain' byTimestamp l) :
    splitSessions g l = l.map (fun y => [y]) := by
  cases l with
  | nil => rfl
  | cons x xs =>
    rw [splitSessions, splitRun_neg_gap g hg x xs hchain]
    simp

/-- Claim C8 (amended): non-positive configuration values are not rejected;
the computation proceeds and produces a well-defined result.  In
particular, with a negative gap threshold `group_into_sessions` makes
every record its own session (and `C8_counterexample` shows a gap of 0 and
a lookback of 0 also produce ordinary results). -/
theorem C8_config_not_rejected (gap_minutes : Int) (hg : gap_minutes < 0)
    (interactions : List ChatInteraction) :
    ∀ s ∈ group_into_sessions gap_minutes interactions, s.length = 1 := by
  intro s hs
  unfold group_into_sessions at hs
  rw [List.mem_join] at hs
  rcases hs with ⟨chunks, hin, hsmem⟩
  rw [List.mem_map] at hin
  rcases hin with ⟨kg, _, rfl⟩
  have hchain : List.Chain' byTimestamp (List.insertionSort byTimestamp kg.2) :=
    List.Pairwise.chain' (List.sorted_insertionSort byTimestamp kg.2)
  rw [splitSessions_neg_gap (gap_minutes * 60) (by omega) _ hchain] at hsmem
  rcases List.mem_map.mp hsmem with ⟨y, _, rfl⟩
  rfl

/-- Witness for `C8_config_not_rejected` at gap `-1` on a two-record
input. -/
theorem C8_config_not_rejected_witness :
    [r1] ∈ group_into_sessions (-1) [r1, r2] ∧ [r1].length = 1 :=
  ⟨by decide, C8_config_not_rejected (-1) (by norm_num) [r1, r2] [r1] (by decide)⟩

/-! ### C9 -/

def p_old : ConversationSession :=
  { session_id := "pa", user_id := "u", project_id := "p", interactions := [],
    start_time := 0, end_time := 100, duration_minutes := 1,
    files_mentioned := [], features_discussed := [],
    problems_encountered := ["error p1", "error p2", "error p3"],
    solutions_found := [], success_indicators := 0, stuck_indicators := 0 }

def p_new : ConversationSession :=
  { p_old with
    session_id := "pb", end_time := 200,
    problems_encountered := ["error p4"] }

/-- Claim C9 is false as stated: with an older session holding three
problems and a newer session holding one, the retained snippets are the
three problems of the *older* session — the newest problem is dropped
entirely (the list is sorted newest-session-first, and Python `[-3:]`
then keeps the tail, which belongs to the oldest sessions). -/
theorem C9_counterexample :
    (calculate_developer_status [p_old, p_new] "u" "p" 2 1000).recent_problems
        = ["error p1", "error p2", "error p3"] ∧
    "error p4" ∉ (calculate_developer_status [p_old, p_new] "u" "p" 2 1000).recent_problems := by
  decide

/-- Claim C9 (amended): `recent_problems` holds at most 3 snippets and is a
suffix of the concatenation of the in-window sessions' problem lists taken
in most-recent-session-first order — i.e. the *last* 3 entries of that
concatenation, which come from the least recent sessions when more than 3
problems exist, not the newest-first selection. -/
theorem C9_recent_problems_bounded (sessions : List ConversationSession)
    (user_id project_id : String) (lookback_hours now : Int) :
    (calculate_developer_status sessions user_id project_id lookback_hours now).recent_problems.length ≤ 3 ∧
    (calculate_developer_status sessions user_id project_id lookback_hours now).recent_problems
      <:+ all_problems_of (List.insertionSort byRecency
            (recent_sessions_for sessions user_id project_id lookback_hours now)) := by
  cases hs : (List.insertionSort byRecency
      (recent_sessions_for sessions user_id project_id lookback_hours now)) with
  | nil =>
    have he : calculate_developer_status sessions user_id project_id lookback_hours now
        = idle_activity user_id project_id := by
      unfold calculate_developer_status
      rw [hs]
    rw [he]
    exact ⟨by simp [idle_activity], List.nil_suffix⟩
  | cons latest restSorted =>
    have he : calculate_developer_status sessions user_id project_id lookback_hours now
        = activity_from_sorted user_id project_id latest restSorted := by
      unfold calculate_developer_status
      rw [hs]
    have hrp : (calculate_developer_status sessions user_id project_id lookback_hours now).recent_problems
        = (all_problems_of (latest :: restSorted)).drop
            ((all_problems_of (latest :: restSorted)).length - 3) := by
      rw [he]
      rfl
    rw [hrp]
    constructor
    · rw [List.length_drop]
      omega
    · exact ⟨(all_problems_of (latest :: restSorted)).take
          ((all_problems_of (latest :: restSorted)).length - 3),
        List.take_append_drop _ _⟩

/-! ### C5 -/

/-- Helper for claim C5, covering one `_check_collision` call: when the two
users' file sets intersect the returned warning is a `file` collision with
confidence 9/10; a `feature` warning (confidence 7/10) is returned only
when the file sets are disjoint and the feature sets intersect; and the
file confidence strictly exceeds the feature confidence. -/
theorem check_collision_kind_confidence (sessions1 sessions2 : List ConversationSession)
    (user1 user2 : String) (now : Int) :
    (∀ c, _check_collision sessions1 sessions2 user1 user2 now = some c →
        (c.type = "file_collision" ∧ c.confidence = mkRat 9 10) ∨
        (c.type = "feature_collision" ∧ c.confidence = mkRat 7 10)) ∧
    ((∃ f, f ∈ union_files sessions1 ∧ f ∈ union_files sessions2) →
      ∃ c, _check_collision sessions1 sessions2 user1 user2 now = some c ∧
        c.type = "file_collision" ∧ c.confidence = mkRat 9 10) ∧
    (∀ c, _check_collision sessions1 sessions2 user1 user2 now = some c →
        c.type = "feature_collision" →
        (¬ ∃ f, f ∈ union_files sessions1 ∧ f ∈ union_files sessions2) ∧
        (∃ g, g ∈ union_features sessions1 ∧ g ∈ union_features sessions2)) ∧
    mkRat 7 10 < mkRat 9 10 := by
  cases hf : ((union_files sessions1).filter (fun f => f ∈ union_files sessions2)) with
  | cons f fs =>
    have he : _check_collision sessions1 sessions2 user1 user2 now
        = some { type := "file_collision", users := [user1, user2], resource := f,
                 confidence := mkRat 9 10, detected_at := now,
                 suggestion := "Coordinate work on " ++ f } := by
      unfold _check_collision
      rw [hf]
    refine ⟨?_, ?_, ?_, by decide⟩
    · intro c hc
      rw [he] at hc
      cases Option.some.inj hc
      exact Or.inl ⟨rfl, rfl⟩
    · intro _
      exact ⟨_, he, rfl, rfl⟩
    · intro c hc hfeat
      rw [he] at hc
      cases Option.some.inj hc
      simp at hfeat
  | nil =>
    have hnofile : ¬ ∃ f, f ∈ union_files sessions1 ∧ f ∈ union_files sessions2 := by
      rintro ⟨f, hf1, hf2⟩
      have := List.filter_eq_nil.mp hf f hf1
      simp at this
      exact this hf2
    cases hg : ((union_features sessions1).filter (fun g => g ∈ union_features sessions2)) with
    | cons g gs =>
      have he : _check_collision sessions1 sessions2 user1 user2 now
          = some { type := "feature_collision", users := [user1, user2], resource := g,
                   confidence := mkRat 7 10, detected_at := now,
                   suggestion := "Coordinate " ++ g ++ " development" } := by
        unfold _check_collision
        rw [hf, hg]
      have hgmem : g ∈ (union_features sessions1).filter
          (fun g => g ∈ union_features sessions2) := by
        rw [hg]
        exact List.mem_cons_self g gs
      have hgboth : g ∈ union_features sessions1 ∧ g ∈ union_features sessions2 := by
        have h1 := List.of_mem_filter hgmem
        have h2 := List.mem_of_mem_filter hgmem
        simp at h1
        exact ⟨h2, h1⟩
      refine ⟨?_, ?_, ?_, by decide⟩
      · intro c hc
        rw [he] at hc
        cases Option.some.inj hc
        exact Or.inr ⟨rfl, rfl⟩
      · intro hshared
        exact absurd hshared hnofile
      · intro c hc _
        exact ⟨hnofile, ⟨g, hgboth⟩⟩
    | nil =>
      have he : _check_collision sessions1 sessions2 user1 user2 now = none := by
        unfold _check_collision
        rw [hf, hg]
      refine ⟨?_, ?_, ?_, by decide⟩
      · intro c hc
        rw [he] at hc
        cases hc
      · intro hshared
        exact absurd hshared hnofile
      · intro c hc
        rw [he] at hc
        cases hc

/-- Any warning built by `_check_collision` names exactly the checked pair,
in check order. -/
theorem check_collision_users (sessions1 sessions2 : List ConversationSession)
    (user1 user2 : String) (now : Int) (c : Collision)
    (h : _check_collision sessions1 sessions2 user1 user2 now = some c) :
    c.users = [user1, user2] := by
  unfold _check_collision at h
  cases hf : ((union_files sessions1).filter (fun f => f ∈ union_files sessions2)) with
  | cons f fs =>
    rw [hf] at h
    cases Option.some.inj h
    rfl
  | nil =>
    rw [hf] at h
    cases hg : ((union_features sessions1).filter (fun g => g ∈ union_features sessions2)) with
    | cons g gs =>
      rw [hg] at h
      cases Option.some.inj h
      rfl
    | nil =>
      rw [hg] at h
      cases h

/-- Adding a session to the `user_activities` buckets leaves the key list
unchanged when the user is present and appends the user otherwise. -/
theorem addSessionToGroups_keys (s : ConversationSession) :
    ∀ gs : List (String × List ConversationSession),
    (addSessionToGroups s gs).map Prod.fst =
      if s.user_id ∈ gs.map Prod.fst then gs.map Prod.fst
      else gs.map Prod.fst ++ [s.user_id] := by
  intro gs
  induction gs with
  | nil => simp [addSessionToGroups]
  | cons ug rest ih =>
    obtain ⟨u, g⟩ := ug
    rw [addSessionToGroups]
    by_cases hu : u = s.user_id
    · rw [if_pos hu]
      have hc : s.user_id ∈ ((u, g) :: rest).map Prod.fst := by
        simp [hu]
      rw [if_pos hc]
      simp
    · rw [if_neg hu]
      simp only [List.map_cons]
      rw [ih]
      by_cases hmem : s.user_id ∈ rest.map Prod.fst
      · rw [if_pos hmem, if_pos (List.mem_cons_of_mem _ hmem)]
      · rw [if_neg hmem, if_neg (fun hcon => by
          rcases List.mem_cons.mp hcon with h | h
          · exact hu h.symm
          · exact hmem h)]
        simp

theorem addSessionToGroups_keys_nodup (s : ConversationSession)
    (gs : List (String × List ConversationSession))
    (h : (gs.map Prod.fst).Nodup) :
    ((addSessionToGroups s gs).map Prod.fst).Nodup := by
  rw [addSessionToGroups_keys]
  split
  · exact h
  · rename_i hmem
    rw [List.nodup_append]
    exact ⟨h, List.nodup_singleton _, by
      intro x hx hx1
      rw [List.mem_singleton.mp hx1] at hx
      exact hmem hx⟩

theorem foldl_addSessionToGroups_keys_nodup (sessions : List ConversationSession) :
    ∀ gs : List (String × List ConversationSession),
    (gs.map Prod.fst).Nodup →
    ((sessions.foldl (fun acc s => addSessionToGroups s acc) gs).map Prod.fst).Nodup := by
  induction sessions with
  | nil => exact fun gs h => h
  | cons s rest ih =>
    intro gs h
    exact ih _ (addSessionToGroups_keys_nodup s gs h)

/-- The `user_activities` dict has pairwise-distinct keys. -/
theorem groupByUser_keys_nodup (sessions : List ConversationSession) :
    ((groupByUser sessions).map Prod.fst).Nodup :=
  foldl_addSessionToGroups_keys_nodup sessions [] List.nodup_nil

/-- Every warning of the pair loop names two users drawn from the bucket
keys, the first one being the outer-loop user. -/
theorem collide_pairs_users_mem (now : Int) :
    ∀ groups : List (String × List ConversationSession),
    ∀ c ∈ collide_pairs now groups, ∃ y x, c.users = [y, x] ∧
      y ∈ groups.map Prod.fst ∧ x ∈ groups.map Prod.fst := by
  intro groups
  induction groups with
  | nil => intro c hc; cases hc
  | cons ug rest ih =>
    intro c hc
    obtain ⟨u1, g1⟩ := ug
    rw [collide_pairs] at hc
    rcases List.mem_append.mp hc with hc | hc
    · rcases List.mem_filterMap.mp hc with ⟨ug2, hmem2, hsome2⟩
      refine ⟨u1, ug2.1, check_collision_users _ _ _ _ _ _ hsome2, by simp, ?_⟩
      exact List.mem_cons_of_mem _ (List.mem_map_of_mem Prod.fst hmem2)
    · rcases ih c hc with ⟨y, x, hyx, hy, hx⟩
      exact ⟨y, x, hyx, List.mem_cons_of_mem _ hy, List.mem_cons_of_mem _ hx⟩

/-- One inner loop of `detect_team_collisions` produces at most one warning
satisfying a predicate that pins the inner user to a single value, because
the bucket keys are distinct. -/
theorem countP_filterMap_fixed_key (now : Int) (u1 : String)
    (g1 : List ConversationSession) (P : Collision → Bool) (v : String)
    (hP : ∀ (u2 : String) (g2 : List ConversationSession) (c : Collision),
        _check_collision g1 g2 u1 u2 now = some c → P c = true → u2 = v) :
    ∀ rest : List (String × List ConversationSession),
    (rest.map Prod.fst).Nodup →
    ((rest.filterMap (fun ug => _check_collision g1 ug.2 u1 ug.1 now)).countP P) ≤ 1 := by
  intro rest
  induction rest with
  | nil => intro _; simp
  | cons ug rest ih =>
    intro hnd
    obtain ⟨u2, g2⟩ := ug
    rw [List.filterMap_cons]
    cases hc : _check_collision g1 g2 u1 u2 now with
    | none => exact ih (List.nodup_cons.mp hnd).2
    | some c =>
      rw [List.countP_cons]
      by_cases hPc : P c = true
      · have hv : u2 = v := hP u2 g2 c hc hPc
        have hzero : ((rest.filterMap
            (fun ug => _check_collision g1 ug.2 u1 ug.1 now)).countP P) = 0 := by
          rw [List.countP_eq_zero]
          intro c2 hc2
          rcases List.mem_filterMap.mp hc2 with ⟨ug2, hmem2, hsome2⟩
          intro hPc2
          have hv2 : ug2.1 = v := hP ug2.1 ug2.2 c2 hsome2 hPc2
          have hin : ug2.1 ∈ rest.map Prod.fst := List.mem_map_of_mem Prod.fst hmem2
          rw [hv2, ← hv] at hin
          exact (List.nodup_cons.mp hnd).1 hin
        rw [hzero, hPc]
        simp
      · have hPcf : P c = false := by
          cases hPcc : P c
          · rfl
          · exact absurd hPcc hPc
        rw [hPcf]
        simpa using ih (List.nodup_cons.mp hnd).2

/-- Over buckets with distinct keys, the whole pair loop emits at most one
warning naming a given unordered pair. -/
theorem collide_pairs_pair_unique (now : Int) (a b : String) :
    ∀ groups : List (String × List ConversationSession),
    (groups.map Prod.fst).Nodup →
    ((collide_pairs now groups).countP
        (fun c => decide (c.users = [a, b] ∨ c.users = [b, a]))) ≤ 1 := by
  intro groups
  induction groups with
  | nil => intro _; simp [collide_pairs]
  | cons ug rest ih =>
    intro hnd
    obtain ⟨u1, g1⟩ := ug
    rw [List.map_cons] at hnd
    have hu1 : u1 ∉ rest.map Prod.fst := (List.nodup_cons.mp hnd).1
    have hndr : (rest.map Prod.fst).Nodup := (List.nodup_cons.mp hnd).2
    rw [collide_pairs, List.countP_append]
    by_cases hab : u1 = a ∨ u1 = b
    · have htail : ((collide_pairs now rest).countP
          (fun c => decide (c.users = [a, b] ∨ c.users = [b, a]))) = 0 := by
        rw [List.countP_eq_zero]
        intro c hc
        rcases collide_pairs_users_mem now rest c hc with ⟨y, x, hyx, hy, hx⟩
        simp only [decide_eq_true_eq]
        rintro (h1 | h1) <;> rw [hyx] at h1 <;> simp at h1
        · rcases hab with ha | hb
          · exact hu1 (by rw [ha, ← h1.1]; exact hy)
          · exact hu1 (by rw [hb, ← h1.2]; exact hx)
        · rcases hab with ha | hb
          · exact hu1 (by rw [ha, ← h1.2]; exact hx)
          · exact hu1 (by rw [hb, ← h1.1]; exact hy)
      rw [htail]
      have hhead : ((rest.filterMap
          (fun ug => _check_collision g1 ug.2 u1 ug.1 now)).countP
            (fun c => decide (c.users = [a, b] ∨ c.users = [b, a]))) ≤ 1 := by
        rcases hab with ha | hb
        · refine countP_filterMap_fixed_key now u1 g1 _ b ?_ rest hndr
          intro u2 g2 c hsome hPc
          have husers := check_collision_users g1 g2 u1 u2 now c hsome
          rw [husers, ha] at hPc
          simp at hPc
          rcases hPc with h1 | h1
          · exact h1
          · rw [h1.2]
            exact h1.1
        · refine countP_filterMap_fixed_key now u1 g1 _ a ?_ rest hndr
          intro u2 g2 c hsome hPc
          have husers := check_collision_users g1 g2 u1 u2 now c hsome
          rw [husers, hb] at hPc
          simp at hPc
          rcases hPc with h1 | h1
          · rw [h1.2]
            exact h1.1
          · exact h1
      omega
    · have hhead : ((rest.filterMap
          (fun ug => _check_collision g1 ug.2 u1 ug.1 now)).countP
            (fun c => decide (c.users = [a, b] ∨ c.users = [b, a]))) = 0 := by
        rw [List.countP_eq_zero]
        intro c hc
        rcases List.mem_filterMap.mp hc with ⟨ug2, hmem2, hsome2⟩
        have husers := check_collision_users g1 ug2.2 u1 ug2.1 now c hsome2
        simp only [decide_eq_true_eq]
        rintro (h1 | h1) <;> rw [husers] at h1 <;> simp at h1
        · exact hab (Or.inl h1.1)
        · exact hab (Or.inr h1.1)
      rw [hhead]
      simpa using ih hndr

/-- Claim C5: a detection pass emits at most one CollisionWarning per
unordered pair of distinct people (for any pair `{a, b}`, at most one
warning of the whole `detect_team_collisions` output names it — the bucket
keys are distinct and the pair loop checks each unordered pair once, with
`_check_collision` returning at most one optional warning).  Moreover, when
the two users' in-window file sets intersect the warning is a `file`
collision with confidence 9/10; a `feature` warning (confidence 7/10) is
returned only when the file sets are disjoint and the feature sets
intersect; and the file confidence strictly exceeds the feature
confidence. -/
theorem C5_collision_pairwise (sessions sessions1 sessions2 : List ConversationSession)
    (project_id a b user1 user2 : String) (lookback_hours now : Int) :
    ((detect_team_collisions sessions project_id lookback_hours now).countP
        (fun c => decide (c.users = [a, b] ∨ c.users = [b, a]))) ≤ 1 ∧
    (∀ c, _check_collision sessions1 sessions2 user1 user2 now = some c →
        (c.type = "file_collision" ∧ c.confidence = mkRat 9 10) ∨
        (c.type = "feature_collision" ∧ c.confidence = mkRat 7 10)) ∧
    ((∃ f, f ∈ union_files sessions1 ∧ f ∈ union_files sessions2) →
      ∃ c, _check_collision sessions1 sessions2 user1 user2 now = some c ∧
        c.type = "file_collision" ∧ c.confidence = mkRat 9 10) ∧
    (∀ c, _check_collision sessions1 sessions2 user1 user2 now = some c →
        c.type = "feature_collision" →
        (¬ ∃ f, f ∈ union_files sessions1 ∧ f ∈ union_files sessions2) ∧
        (∃ g, g ∈ union_features sessions1 ∧ g ∈ union_features sessions2)) ∧
    mkRat 7 10 < mkRat 9 10 := by
  refine ⟨?_, (check_collision_kind_confidence sessions1 sessions2 user1 user2 now).1,
    (check_collision_kind_confidence sessions1 sessions2 user1 user2 now).2.1,
    (check_collision_kind_confidence sessions1 sessions2 user1 user2 now).2.2.1,
    (check_collision_kind_confidence sessions1 sessions2 user1 user2 now).2.2.2⟩
  unfold detect_team_collisions
  exact collide_pairs_pair_unique now a b _ (groupByUser_keys_nodup _)

def f_session1 : ConversationSession :=
  { p_old with
    session_id := "f1",
    files_mentioned := ["auth.js"],
    problems_encountered := [] }

def f_session2 : ConversationSession :=
  { p_old with
    session_id := "f2",
    user_id := "v",
    files_mentioned := ["auth.js", "db.js"],
    problems_encountered := [] }

/-- Witness for `C5_collision_pairwise`: two users' sessions both reference
`auth.js`, so the pair gets a file collision of confidence 9/10, and the
whole detection pass over those sessions emits at most one warning for the
unordered pair. -/
theorem C5_collision_pairwise_witness :
    ((detect_team_collisions [f_session1, f_session2] "p" 2 1000).countP
        (fun c => decide (c.users = ["u", "v"] ∨ c.users = ["v", "u"]))) ≤ 1 ∧
    (∃ f, f ∈ union_files [f_session1] ∧ f ∈ union_files [f_session2]) ∧
    ∃ c, _check_collision [f_session1] [f_session2] "u" "v" 500 = some c ∧
      c.type = "file_collision" ∧ c.confidence = mkRat 9 10 :=
  ⟨(C5_collision_pairwise [f_session1, f_session2] [f_session1] [f_session2]
      "p" "u" "v" "u" "v" 2 1000).1,
   ⟨"auth.js", by decide, by decide⟩,
   (C5_collision_pairwise [f_session1, f_session2] [f_session1] [f_session2]
      "p" "u" "v" "u" "v" 2 500).2.2.1
     ⟨"auth.js", by decide, by decide⟩⟩

/-! ### C7 -/

/-- Claim C7 is false as stated: running collision detection on the same
fixed session set at two different wall-clock instants (both keeping every
session inside the lookback window) yields different outputs, because the
emitted warning embeds the evaluation time in `detected_at`. -/
theorem C7_counterexample :
    detect_team_collisions [f_session1, f_session2] "p" 2 1000 ≠
      detect_team_collisions [f_session1, f_session2] "p" 2 2000 := by
  decide

/-- Claim C7 (amended): the pipeline is a pure function of the record set,
the configuration and the evaluation time; the activity classification
depends on the evaluation time only through the lookback filter, so any two
evaluation instants that select the same in-window sessions produce
identical `DeveloperActivity` values.  (Collision output additionally
embeds the evaluation time in `detected_at`, and tied timestamps are kept
in input order by the stable sorts, not tie-broken by record id.) -/
theorem C7_window_determinism (sessions : List ConversationSession)
    (user_id project_id : String) (lookback_hours : Int) (t1 t2 : Int)
    (h : recent_sessions_for sessions user_id project_id lookback_hours t1 =
         recent_sessions_for sessions user_id project_id lookback_hours t2) :
    calculate_developer_status sessions user_id project_id lookback_hours t1 =
      calculate_developer_status sessions user_id project_id lookback_hours t2 := by
  unfold calculate_developer_status
  rw [h]

/-- Witness for `C7_window_determinism` with two distinct instants whose
windows select the same sessions. -/
theorem C7_window_determinism_witness :
    recent_sessions_for [p_old] "u" "p" 2 1000 =
      recent_sessions_for [p_old] "u" "p" 2 1001 ∧
    calculate_developer_status [p_old] "u" "p" 2 1000 =
      calculate_developer_status [p_old] "u" "p" 2 1001 :=
  ⟨by decide, C7_window_determinism [p_old] "u" "p" 2 1000 1001 (by decide)⟩

/-! ### C2 -/

/-- The within-session gap bound of the specification: consecutive records
differ by at most `g` seconds. -/
def withinGap (g : Int) (a b : ChatInteraction) : Prop :=
  b.interaction_timestamp - a.interaction_timestamp ≤ g

instance (g : Int) : DecidableRel (withinGap g) := fun a b =>
  inferInstanceAs (Decidable (_ ≤ _))

/-- The boundary condition between two adjacent sessions: the first record
of the second session starts strictly more than `g` seconds after the last
record of the first session. -/
def boundary_exceeds (g : Int) (s1 s2 : List ChatInteraction) : Bool :=
  match s1.getLast?, s2.head? with
  | some a, some b => decide (g < b.interaction_timestamp - a.interaction_timestamp)
  | _, _ => true

theorem splitRun_join (g : Int) (x : ChatInteraction) (xs : List ChatInteraction) :
    (splitRun g x xs).1 ++ (splitRun g x xs).2.join = x :: xs := by
  induction xs generalizing x with
  | nil => rfl
  | cons y ys ih =>
    rw [splitRun]
    split
    · simp [ih y]
    · simp [ih y]

theorem splitRun_fst_cons (g : Int) (x : ChatInteraction) (xs : List ChatInteraction) :
    ∃ t, (splitRun g x xs).1 = x :: t := by
  cases xs with
  | nil => exact ⟨[], rfl⟩
  | cons y ys =>
    rw [splitRun]
    split
    · exact ⟨[], rfl⟩
    · exact ⟨_, rfl⟩

theorem splitRun_snd_ne_nil (g : Int) (x : ChatInteraction) (xs : List ChatInteraction) :
    ∀ s ∈ (splitRun g x xs).2, s ≠ [] := by
  induction xs generalizing x with
  | nil => intro s hs; cases hs
  | cons y ys ih =>
    rw [splitRun]
    split
    · intro s hs
      rcases List.mem_cons.mp hs with rfl | hs
      · rcases splitRun_fst_cons g y ys with ⟨t, ht⟩
        rw [ht]
        exact List.cons_ne_nil y t
      · exact ih y s hs
    · intro s hs
      exact ih y s hs

theorem splitRun_chain (g : Int) (x : ChatInteraction) (xs : List ChatInteraction) :
    List.Chain' (withinGap g) (splitRun g x xs).1 ∧
    ∀ s ∈ (splitRun g x xs).2, List.Chain' (withinGap g) s := by
  induction xs generalizing x with
  | nil => exact ⟨List.chain'_singleton x, fun s hs => absurd hs (List.not_mem_nil s)⟩
  | cons y ys ih =>
    rw [splitRun]
    split
    · refine ⟨List.chain'_singleton x, ?_⟩
      intro s hs
      rcases List.mem_cons.mp hs with rfl | hs
      · exact (ih y).1
      · exact (ih y).2 s hs
    · rename_i hcond
      refine ⟨?_, (ih y).2⟩
      show List.Chain' (withinGap g) (x :: (splitRun g y ys).1)
      rcases splitRun_fst_cons g y ys with ⟨t, ht⟩
      have hyc : List.Chain' (withinGap g) (y :: t) := ht ▸ (ih y).1
      rw [ht]
      refine List.chain'_cons.mpr ⟨?_, hyc⟩
      unfold withinGap
      omega

theorem splitRun_boundary (g : Int) (x : ChatInteraction) (xs : List ChatInteraction) :
    List.Chain' (fun s1 s2 => boundary_exceeds g s1 s2 = true)
      ((splitRun g x xs).1 :: (splitRun g x xs).2) := by
  induction xs generalizing x with
  | nil => exact List.chain'_singleton _
  | cons y ys ih =>
    rw [splitRun]
    split
    · rename_i hcond
      show List.Chain' _ ([x] :: (splitRun g y ys).1 :: (splitRun g y ys).2)
      refine List.chain'_cons.mpr ⟨?_, ih y⟩
      rcases splitRun_fst_cons g y ys with ⟨t, ht⟩
      rw [ht]
      simp only [boundary_exceeds, List.getLast?_singleton, List.head?_cons]
      exact decide_eq_true hcond
    · rename_i hcond
      show List.Chain' _ ((x :: (splitRun g y ys).1) :: (splitRun g y ys).2)
      have hih := ih y
      rcases splitRun_fst_cons g y ys with ⟨t, ht⟩
      rw [ht] at hih ⊢
      rcases List.chain'_cons'.mp hih with ⟨hhead, htail⟩
      refine List.chain'_cons'.mpr ⟨?_, htail⟩
      intro s2 hs2
      have hb := hhead s2 hs2
      have heq : boundary_exceeds g (x :: y :: t) s2 = boundary_exceeds g (y :: t) s2 := by
        unfold boundary_exceeds
        rw [List.getLast?_cons_cons]
      rw [heq]
      exact hb

theorem splitSessions_join (g : Int) (l : List ChatInteraction) :
    (splitSessions g l).join = l := by
  cases l with
  | nil => rfl
  | cons x xs =>
    show ((splitRun g x xs).1 :: (splitRun g x xs).2).join = x :: xs
    rw [List.join]
    exact splitRun_join g x xs

theorem splitSessions_ne_nil (g : Int) (l : List ChatInteraction) :
    ∀ s ∈ splitSessions g l, s ≠ [] := by
  cases l with
  | nil => intro s hs; cases hs
  | cons x xs =>
    intro s hs
    rcases List.mem_cons.mp hs with rfl | hs
    · rcases splitRun_fst_cons g x xs with ⟨t, ht⟩
      rw [ht]
      exact List.cons_ne_nil x t
    · exact splitRun_snd_ne_nil g x xs s hs

theorem splitSessions_chain (g : Int) (l : List ChatInteraction) :
    ∀ s ∈ splitSessions g l, List.Chain' (withinGap g) s := by
  cases l with
  | nil => intro s hs; cases hs
  | cons x xs =>
    intro s hs
    rcases List.mem_cons.mp hs with rfl | hs
    · exact (splitRun_chain g x xs).1
    · exact (splitRun_chain g x xs).2 s hs

theorem splitSessions_boundary (g : Int) (l : List ChatInteraction) :
    List.Chain' (fun s1 s2 => boundary_exceeds g s1 s2 = true) (splitSessions g l) := by
  cases l with
  | nil => exact List.chain'_nil
  | cons x xs => exact splitRun_boundary g x xs

theorem foldl_addToGroups_const (u p : String) (l : List ChatInteraction)
    (h : ∀ r ∈ l, r.user_id = u ∧ r.project_id = p) (acc : List ChatInteraction) :
    List.foldl (fun gs x => addToGroups x gs) [((u, p), acc)] l = [((u, p), acc ++ l)] := by
  induction l generalizing acc with
  | nil => simp
  | cons x xs ih =>
    have hx := h x (List.mem_cons_self x xs)
    have hstep : addToGroups x [((u, p), acc)] = [((u, p), acc ++ [x])] := by
      simp [addToGroups, hx.1, hx.2]
    rw [List.foldl_cons, hstep,
      ih (fun r hr => h r (List.mem_cons_of_mem x hr)) (acc ++ [x])]
    simp

theorem groupByKey_single (u p : String) (l : List ChatInteraction) (hl : l ≠ [])
    (h : ∀ r ∈ l, r.user_id = u ∧ r.project_id = p) :
    groupByKey l = [((u, p), l)] := by
  cases l with
  | nil => exact absurd rfl hl
  | cons x xs =>
    have hx := h x (List.mem_cons_self x xs)
    unfold groupByKey
    rw [List.foldl_cons]
    have hstep : addToGroups x [] = [((u, p), [x])] := by
      simp [addToGroups, hx.1, hx.2]
    rw [hstep, foldl_addToGroups_const u p xs
      (fun r hr => h r (List.mem_cons_of_mem x hr)) [x]]
    simp

/-- Claim C2: for records of a single (author, scope) pair and any gap
threshold, segmentation partitions the input — the concatenation of the
produced sessions is a permutation of the input (each record in exactly one
session), every session is non-empty, consecutive records inside a session
differ by at most the threshold, the boundary gap between adjacent sessions
strictly exceeds the threshold, the concatenation is chronologically sorted
(sessions ordered and non-overlapping), and a single record yields one
one-element session. -/
theorem C2_segmentation_partition (gap_minutes : Int) (u p : String)
    (l : List ChatInteraction)
    (h : ∀ r ∈ l, r.user_id = u ∧ r.project_id = p) :
    List.Perm (group_into_sessions gap_minutes l).join l ∧
    (∀ s ∈ group_into_sessions gap_minutes l, s ≠ []) ∧
    (∀ s ∈ group_into_sessions gap_minutes l,
      List.Chain' (withinGap (gap_minutes * 60)) s) ∧
    List.Chain' (fun s1 s2 => boundary_exceeds (gap_minutes * 60) s1 s2 = true)
      (group_into_sessions gap_minutes l) ∧
    List.Sorted byTimestamp (group_into_sessions gap_minutes l).join ∧
    (∀ x : ChatInteraction, group_into_sessions gap_minutes [x] = [[x]]) := by
  by_cases hl : l = []
  · subst hl
    exact ⟨List.Perm.refl _,
      fun s hs => absurd hs (List.not_mem_nil s),
      fun s hs => absurd hs (List.not_mem_nil s),
      List.chain'_nil, List.sorted_nil, fun x => rfl⟩
  · have hgk : groupByKey l = [((u, p), l)] := groupByKey_single u p l hl h
    have hgi : group_into_sessions gap_minutes l
        = splitSessions (gap_minutes * 60) (List.insertionSort byTimestamp l) := by
      unfold group_into_sessions
      rw [hgk]
      simp
    rw [hgi]
    have hjoin : (splitSessions (gap_minutes * 60) (List.insertionSort byTimestamp l)).join
        = List.insertionSort byTimestamp l := splitSessions_join _ _
    refine ⟨?_, splitSessions_ne_nil _ _, splitSessions_chain _ _,
      splitSessions_boundary _ _, ?_, fun x => rfl⟩
    · rw [hjoin]
      exact List.perm_insertionSort byTimestamp l
    · rw [hjoin]
      exact List.sorted_insertionSort byTimestamp l

/-- Witness for `C2_segmentation_partition` on a two-record single-pair
input. -/
theorem C2_segmentation_partition_witness :
    (∀ r ∈ [r1, r2], r.user_id = "u" ∧ r.project_id = "p") ∧
    List.Perm (group_into_sessions 30 [r1, r2]).join [r1, r2] :=
  ⟨by decide, (C2_segmentation_partition 30 "u" "p" [r1, r2] (by decide)).1⟩
